import Mathlib

/-!
Verification of the mealie recipe-scraping core
(`services/scrape_services.py` and `services/image_services.py`).

Python values that flow through the normalizers are modelled by the
inductive type `Value` (None, strings, integers, lists, dicts).  Python
exceptions are modelled by `PyErr`; fallible functions return
`Except PyErr _`.  The image directory is modelled as an association
list from file names to byte lists, in directory-listing order.
-/

namespace Mealie

/-- Model of a Python value as it appears in the scraped recipe data:
`None`, strings, integers, lists and dicts (as ordered key/value lists,
matching Python's insertion-ordered dicts). -/
inductive Value where
  | vnone
  | str (s : String)
  | vint (n : Int)
  | list (xs : List Value)
  | dict (fields : List (String × Value))

/-- Model of the Python exceptions the scraping code can raise.
`unrecognizedShape` stands for the `Exception(f"Unrecognised ... format")`
raises and carries the offending value, as the message does. -/
inductive PyErr where
  | unrecognizedShape (v : Value)
  | indexError
  | keyError (k : String)
  | attributeError
  | typeError

/-- `d[k]`-style lookup in a dict, first binding wins. -/
def alistGet (d : List (String × Value)) (k : String) : Option Value :=
  match d with
  | [] => none
  | (k0, v) :: rest => if k0 = k then some v else alistGet rest k

/-- Python `d.get(k)`: missing keys give `None`. -/
def pyGet (d : List (String × Value)) (k : String) : Value :=
  (alistGet d k).getD .vnone

/-- Python `d[k]`: missing keys raise `KeyError`. -/
def pyIndex (d : List (String × Value)) (k : String) : Except PyErr Value :=
  match alistGet d k with
  | some v => .ok v
  | none => .error (.keyError k)

/-- Python `d[k] = v`: replaces the binding in place, or appends a new one,
preserving insertion order. -/
def setKey (d : List (String × Value)) (k : String) (v : Value) :
    List (String × Value) :=
  match d with
  | [] => [(k, v)]
  | (k0, v0) :: rest => if k0 = k then (k, v) :: rest else (k0, v0) :: setKey rest k v

/-- Sequence of `d[k] = v` assignments (models `dict.update`). -/
def setKeys (d : List (String × Value)) (kvs : List (String × Value)) :
    List (String × Value) :=
  kvs.foldl (fun acc p => setKey acc p.1 p.2) d

/-- Python truthiness test (`if not l:`) on our values. -/
def pyFalsy : Value → Bool
  | .vnone => true
  | .str s => s.isEmpty
  | .vint n => n == 0
  | .list xs => xs.isEmpty
  | .dict d => d.isEmpty

/-- Modelled from the spec: one left-to-right entity-decoding pass of the
`html.unescape` capability ("decode HTML entities"), restricted to the
core named entities `&amp;` `&lt;` `&gt;` `&quot;`.  A character produced
by decoding is not re-examined within the same pass, exactly as in a
single `html.unescape` call. -/
def unescapePass : List Char → List Char
  | [] => []
  | '&' :: 'a' :: 'm' :: 'p' :: ';' :: rest => '&' :: unescapePass rest
  | '&' :: 'l' :: 't' :: ';' :: rest => '<' :: unescapePass rest
  | '&' :: 'g' :: 't' :: ';' :: rest => '>' :: unescapePass rest
  | '&' :: 'q' :: 'u' :: 'o' :: 't' :: ';' :: rest => '"' :: unescapePass rest
  | c :: rest => c :: unescapePass rest

/-- The source's `while not l == (l := html.unescape(l)): pass` loop with
explicit fuel: apply `pass` until it makes no change or the fuel runs out. -/
def unescapeLoop : Nat → List Char → List Char
  | 0, l => l
  | n + 1, l =>
    let next := unescapePass l
    if next = l then l else unescapeLoop n next

/-- The fixed point the source loop converges to; fuel `l.length + 1`
suffices (proved below: every changing pass strictly shortens the text). -/
def unescapeFix (l : List Char) : List Char :=
  unescapeLoop (l.length + 1) l

/-- `unescape_html` applied to a string: empty strings are falsy and give
`None`, otherwise decode entities to a fixed point. -/
def unescape_html_str (s : String) : Value :=
  if s.isEmpty then .vnone else .str (String.mk (unescapeFix s.data))

/-- `unescape_html(l)`: falsy input gives `None`; a string is decoded to a
fixed point; a truthy non-string reaches `html.unescape` and raises. -/
def unescape_html (l : Value) : Except PyErr Value :=
  if pyFalsy l then .ok .vnone
  else
    match l with
    | .str s => .ok (.str (String.mk (unescapeFix s.data)))
    | _ => .error .typeError

/-- Python `str.strip()`: drop leading and trailing whitespace. -/
def strip (s : String) : String :=
  String.mk (((s.data.dropWhile Char.isWhitespace).reverse.dropWhile
    Char.isWhitespace).reverse)

/-- Prepend a character to the first fragment of a split result. -/
def consHead (c : Char) : List (List Char) → List (List Char)
  | [] => [[c]]
  | f :: fs => (c :: f) :: fs

/-- `re.split` with `STEP_SPLITTER = (?:\d\. ?)|(?:[\n\r]+)`, scanning left
to right.  A digit followed by a dot and a greedily-taken optional space is
a separator, as is a maximal run of newline characters; the boolean flag
records that the previous character extended a newline run, so the whole
run yields a single separator.  Fragments between separators are returned
in order (empty fragments included, exactly as `re.split` yields them). -/
def splitGo : Bool → List Char → List (List Char)
  | _, [] => [[]]
  | b, c :: rest =>
    if c = '\n' ∨ c = '\r' then
      if b then splitGo true rest else [] :: splitGo true rest
    else
      match c, rest with
      | d, '.' :: ' ' :: rest2 =>
        if d.isDigit then [] :: splitGo false rest2
        else consHead d (splitGo false ('.' :: ' ' :: rest2))
      | d, '.' :: rest2 =>
        if d.isDigit then [] :: splitGo false rest2
        else consHead d (splitGo false ('.' :: rest2))
      | c, rest => consHead c (splitGo false rest)

/-- `STEP_SPLITTER.split(instructions)`. -/
def splitSteps (l : List Char) : List (List Char) :=
  splitGo false l

/-- The steps of `[{"text": unescape_html(step.strip())} for step in steps]`:
every element must be a string (`.strip()` on anything else raises
`AttributeError`). -/
def wrapStrSteps : List Value → Except PyErr (List Value)
  | [] => .ok []
  | .str s :: rest =>
    (wrapStrSteps rest).map
      (fun tail => Value.dict [("text", unescape_html_str (strip s))] :: tail)
  | _ :: _ => .error .attributeError

/-- The HowToStep comprehension: keep dict steps whose `@type` equals
`"HowToStep"` and wrap their unescaped, stripped `text` field.  A non-dict
step raises when subscripted; a missing key raises `KeyError`; a non-string
`text` raises at `.strip()`. -/
def howToSteps : List Value → Except PyErr (List Value)
  | [] => .ok []
  | .dict d :: rest => do
    let t ← pyIndex d "@type"
    if (match t with | .str s => s == "HowToStep" | _ => false) then
      let txt ← pyIndex d "text"
      match txt with
      | .str s => do
        let tail ← howToSteps rest
        pure (Value.dict [("text", unescape_html_str (strip s))] :: tail)
      | _ => .error .attributeError
    else
      howToSteps rest
  | _ :: _ => .error .typeError

/-- `normalize_instructions(instructions)`.  A string is split on the step
pattern, empty fragments (falsy strings) are discarded, and the remaining
lines are stripped, unescaped and wrapped as `{"text": line}`.  A list is
probed through its first element — unconditionally, so the empty list hits
`instructions[0]` and raises `IndexError` — and handled as plain strings or
as HowToStep/HowToSection dicts.  Anything else raises the
`Unrecognised instruction format` exception carrying the value. -/
def normalize_instructions : Value → Except PyErr Value
  | .str s =>
    .ok (.list ((((splitSteps s.data).map String.mk).filter
      (fun line => !line.isEmpty)).map
      (fun line => Value.dict [("text", unescape_html_str (strip line))])))
  | .list [] => .error .indexError
  | .list (first :: rest) =>
    match first with
    | .str _ => (wrapStrSteps (first :: rest)).map .list
    | .dict d => do
      let t ← pyIndex d "@type"
      let steps ←
        if (match t with | .str s => s == "HowToSection" | _ => false) then
          pyIndex d "itemListElement"
        else
          pure (Value.list (first :: rest))
      match steps with
      | .list stepList => (howToSteps stepList).map .list
      | _ => .error .typeError
    | _ => .error (.unrecognizedShape (.list (first :: rest)))
  | v => .error (.unrecognizedShape v)

/-- `normalize_image_url(image)`: a list yields its first element (empty
lists raise `IndexError`), a dict yields its `"url"` entry (raising
`KeyError` when absent), a string passes through, and any other shape
raises the `Unrecognised image URL format` exception carrying the value. -/
def normalize_image_url : Value → Except PyErr Value
  | .list [] => .error .indexError
  | .list (x :: _) => .ok x
  | .dict d =>
    match alistGet d "url" with
    | some v => .ok v
    | none => .error (.keyError "url")
  | .str s => .ok (.str s)
  | v => .error (.unrecognizedShape v)

/-- `normalize_yield(yld)`: a list yields its last element (`yld[-1]`,
raising `IndexError` on the empty list); anything else passes through. -/
def normalize_yield : Value → Except PyErr Value
  | .list xs =>
    match xs.getLast? with
    | some v => .ok v
    | none => .error .indexError
  | v => .ok v

mutual

/-- Python `repr` of a value (`str` falls back to this for non-strings);
string escaping inside quotes is not modelled. -/
def pyRepr : Value → String
  | .vnone => "None"
  | .str s => "\x27" ++ s ++ "\x27"
  | .vint n => toString n
  | .list xs => "[" ++ String.intercalate ", " (pyReprList xs) ++ "]"
  | .dict d => "\x7b" ++ String.intercalate ", " (pyReprFields d) ++ "\x7d"

/-- `repr` of the elements of a list. -/
def pyReprList : List Value → List String
  | [] => []
  | v :: vs => pyRepr v :: pyReprList vs

/-- `repr` of the entries of a dict. -/
def pyReprFields : List (String × Value) → List String
  | [] => []
  | (k, v) :: fs => ("\x27" ++ k ++ "\x27: " ++ pyRepr v) :: pyReprFields fs

end

/-- Python `str(x)`: strings pass through, everything else renders via
`repr`-style formatting. -/
def pyStr : Value → String
  | .str s => s
  | v => pyRepr v

/-- `normalize_time(time_entry)`: `None` returns `None`; a non-string is
converted with `str(...)`; a string falls off the end of the function, so
Python returns `None` for it as well (there is no `else` branch). -/
def normalize_time : Value → Value
  | .vnone => .vnone
  | .str _ => .vnone
  | v => .str (pyStr v)

/-- The elements of
`[unescape_html(line.strip()) for line in ingredients]` when `ingredients`
is a list: every element must be a string or `.strip()` raises. -/
def wrapIngredients : List Value → Except PyErr (List Value)
  | [] => .ok []
  | .str s :: rest =>
    (wrapIngredients rest).map (fun tail => unescape_html_str (strip s) :: tail)
  | _ :: _ => .error .attributeError

/-- `normalize_ingredients(ingredients)`: iterate and unescape-and-strip
every element.  Iterating a string walks its characters and iterating a
dict walks its keys, as in Python; non-iterable values raise. -/
def normalize_ingredients : Value → Except PyErr Value
  | .list xs => (wrapIngredients xs).map .list
  | .str s =>
    .ok (.list (s.data.map (fun c => unescape_html_str (strip (String.mk [c])))))
  | .dict d => .ok (.list (d.map (fun p => unescape_html_str (strip p.1))))
  | _ => .error .typeError

/-- `normalize_data(recipe_data)`: normalize each known field in place, in
source order.  `description` and the three time fields and `recipeYield`
and `image` are read with `.get` (defaulting to `None`), while
`recipeInstructions` and `recipeIngredient` are indexed directly and their
absence raises `KeyError`. -/
def normalize_data (recipe_data : List (String × Value)) :
    Except PyErr (List (String × Value)) := do
  let desc ← unescape_html (pyGet recipe_data "description")
  let d := setKey recipe_data "description" desc
  let d := setKey d "totalTime" (normalize_time (pyGet d "totalTime"))
  let d := setKey d "prepTime" (normalize_time (pyGet d "prepTime"))
  let d := setKey d "performTime" (normalize_time (pyGet d "performTime"))
  let yld ← normalize_yield (pyGet d "recipeYield")
  let d := setKey d "recipeYield" yld
  let instrsRaw ← pyIndex d "recipeInstructions"
  let instrs ← normalize_instructions instrsRaw
  let d := setKey d "recipeInstructions" instrs
  let ingrRaw ← pyIndex d "recipeIngredient"
  let ingr ← normalize_ingredients ingrRaw
  let d := setKey d "recipeIngredient" ingr
  let img ← normalize_image_url (pyGet d "image")
  pure (setKey d "image" img)

/-- Split a character list on a separator character (used by `slugify`). -/
def splitOnChar (sep : Char) : List Char → List (List Char)
  | [] => [[]]
  | c :: rest =>
    if c = sep then [] :: splitOnChar sep rest
    else consHead c (splitOnChar sep rest)

/-- Modelled from the spec: the URL-safe slugification capability
(`slugify`, an external collaborator — "slug derived from name via URL-safe
slugification").  Alphanumeric characters are lowered, every other
character separates words, and words are joined with hyphens. -/
def slugify (s : String) : String :=
  String.intercalate "-"
    (((splitOnChar ' '
        (s.data.map (fun c => if c.isAlphanum then c.toLower else ' '))).filter
      (fun w => w ≠ [])).map String.mk)

/-- `og_field(properties, field_name)`: the first value bound to the field
name, or `None` (here `none`) when absent. -/
def og_field (properties : List (String × String)) (field_name : String) :
    Option String :=
  (properties.find? (fun p => p.1 = field_name)).map (fun p => p.2)

/-- `og_fields(properties, field_name)`: all values bound to the field
name, deduplicated (`list({...})`; the Python set's iteration order is not
specified, the model keeps first-occurrence order). -/
def og_fields (properties : List (String × String)) (field_name : String) :
    List String :=
  ((properties.filter (fun p => p.1 = field_name)).map (fun p => p.2)).dedup

/-- Lift `og_field`'s optional result to a `Value`. -/
def optVal : Option String → Value
  | some s => .str s
  | none => .vnone

/-- `process_recipe_data(new_recipe, url)`: slugify the recipe's `name`
(`new_recipe["name"]` raises `KeyError` when absent, and slugifying a
non-string raises) and update the dict with the mealie metadata tags, in
their literal order. -/
def process_recipe_data (new_recipe : List (String × Value)) (url : String) :
    Except PyErr (List (String × Value)) := do
  let name ← pyIndex new_recipe "name"
  match name with
  | .str nameStr =>
    pure (setKeys new_recipe
      [("slug", .str (slugify nameStr)),
       ("orgURL", .str url),
       ("categories", .list []),
       ("tags", .list []),
       ("dateAdded", .vnone),
       ("notes", .list []),
       ("extras", .list [])])
  | _ => .error .typeError

/-- `basic_recipe_from_opengraph(html, url)`, abstracted over the OpenGraph
property list that `extruct.extract` (an external capability) pulls out of
the HTML.  The sentinel ingredient/instruction entries, the empty
`recipeYield` and the slugified `og:title` are written exactly as in the
source dict literal; a missing `og:title` makes `slugify(None)` raise. -/
def basic_recipe_from_opengraph (properties : List (String × String)) :
    Except PyErr (List (String × Value)) :=
  match og_field properties "og:title" with
  | none => .error .typeError
  | some title =>
    .ok
      [("name", .str title),
       ("description", optVal (og_field properties "og:description")),
       ("image", optVal (og_field properties "og:image")),
       ("recipeYield", .str ""),
       ("recipeIngredient", .list [.str "Could not detect ingredients"]),
       ("recipeInstructions",
         .list [.dict [("text", .str "Could not detect instructions")]]),
       ("slug", .str (slugify title)),
       ("orgURL", optVal (og_field properties "og:url")),
       ("categories", .list []),
       ("tags", .list ((og_fields properties "og:article:tag").map .str)),
       ("dateAdded", .vnone),
       ("notes", .list []),
       ("extras", .list [])]

/-- `extract_recipe_from_html(html, url)`, abstracted over the results of
the two structured-data extraction calls (`scrape_schema_recipe.loads` and
`scrape_schema_recipe.scrape_url`, external capabilities) and over the
OpenGraph properties of the page.  An empty first try falls back to the
URL-based extraction; if both are empty the OpenGraph record is built;
otherwise the first candidate is processed and normalized, except that a
falsy (empty) first candidate returns the literal string `"fail"`. -/
def extract_recipe_from_html (loads_result : List (List (String × Value)))
    (scrape_url_result : List (List (String × Value)))
    (properties : List (String × String)) (url : String) :
    Except PyErr Value :=
  let scraped_recipes :=
    if loads_result.isEmpty then scrape_url_result else loads_result
  match scraped_recipes with
  | [] => (basic_recipe_from_opengraph properties).map .dict
  | new_recipe :: _ =>
    if new_recipe.isEmpty then .ok (.str "fail")
    else do
      let p ← process_recipe_data new_recipe url
      let n ← normalize_data p
      pure (.dict n)

/-! ### Image store (`services/image_services.py`)

`IMG_DIR` is modelled as an association list from bare file names to byte
contents, kept in directory-listing order; `IMG_DIR.glob(f"{stem}*")`
yields the entries whose name starts with `stem`, in that order. -/

/-- The image directory: file names with their byte contents. -/
abbrev Store := List (String × List Nat)

/-- `IMG_DIR.joinpath(name).is_file()`. -/
def isFile (store : Store) (name : String) : Bool :=
  store.any (fun f => f.1 = name)

/-- The bytes of a stored file. -/
def readBytes (store : Store) (name : String) : Option (List Nat) :=
  (store.find? (fun f => f.1 = name)).map (fun f => f.2)

/-- `recipe_slug.split(".")[0]`: the characters before the first dot. -/
def stemOf (s : String) : String :=
  String.mk (s.data.takeWhile (fun c => c ≠ '.'))

/-- Whether a file name matches the glob pattern `f"{stem}*"`. -/
def globMatch (stem : String) (name : String) : Bool :=
  stem.data.isPrefixOf name.data

/-- `read_image(recipe_slug)`: return the file named exactly like the slug
if it exists, else the first file whose name starts with the slug's stem,
else nothing. -/
def read_image (store : Store) (recipe_slug : String) : Option String :=
  if isFile store recipe_slug then some recipe_slug
  else (store.find? (fun f => globMatch (stemOf recipe_slug) f.1)).map
    (fun f => f.1)

/-- `delete_image(recipe_slug)`: unlink the first file whose name starts
with the slug's stem (the loop returns after the first match); a no-op when
none matches. -/
def delete_image (store : Store) (recipe_slug : String) : Store :=
  match store.find? (fun f => globMatch (stemOf recipe_slug) f.1) with
  | some f => store.eraseP (fun g => g.1 = f.1)
  | none => store

/-- `open(path, "ab")` followed by `f.write(file_data)`: append to an
existing file, or create a new one at the end of the directory listing. -/
def appendFile (store : Store) (name : String) (file_data : List Nat) : Store :=
  match readBytes store name with
  | some old => store.map (fun f => if f.1 = name then (name, old ++ file_data) else f)
  | none => store ++ [(name, file_data)]

/-- `open(path, "wb")` with a streamed body: truncate an existing file or
create a new one at the end of the directory listing. -/
def writeFileBytes (store : Store) (name : String) (body : List Nat) : Store :=
  if isFile store name then
    store.map (fun f => if f.1 = name then (name, body) else f)
  else store ++ [(name, body)]

/-- `write_image(recipe_slug, file_data, extension)`: delete any image for
the slug first, then append-create `f"{recipe_slug}.{extension}"` and write
the bytes; returns the new store and the written path. -/
def write_image (store : Store) (recipe_slug : String) (file_data : List Nat)
    (extension : String) : Store × String :=
  let store := delete_image store recipe_slug
  let image_path := recipe_slug ++ "." ++ extension
  (appendFile store image_path file_data, image_path)

/-- The characters after the first `://`, if any. -/
def afterSchemeSep : List Char → Option (List Char)
  | [] => none
  | ':' :: '/' :: '/' :: rest => some rest
  | _ :: rest => afterSchemeSep rest

/-- Modelled from the spec: the path component of
`urlparse(image_url)` ("the resolved URL's path suffix").  When a scheme
separator is present the authority up to the first `/` is skipped; query
and fragment are cut off. -/
def urlPath (u : String) : String :=
  match afterSchemeSep u.data with
  | some rest =>
    String.mk ((rest.dropWhile (fun c => c ≠ '/')).takeWhile
      (fun c => c ≠ '?' ∧ c ≠ '#'))
  | none => String.mk (u.data.takeWhile (fun c => c ≠ '?' ∧ c ≠ '#'))

/-- `Path(p).suffix` of `pathlib`: the part of the final component from its
last dot on, dot included; empty when the component has no dot, starts with
its only dot, or ends with the dot. -/
def pathSuffix (p : String) : String :=
  let name := (p.data.reverse.takeWhile (fun c => c ≠ '/')).reverse
  let revName := name.reverse
  let ext := revName.takeWhile (fun c => c ≠ '.')
  if ext.length = revName.length then ""
  else if ext.length = 0 then ""
  else if ext.length + 1 = revName.length then ""
  else String.mk ('.' :: ext.reverse)

/-- `Path(p).name`: the final path component (paths in the store carry no
directory part, so this is normally the name itself). -/
def pathName (p : String) : String :=
  String.mk ((p.data.reverse.takeWhile (fun c => c ≠ '/')).reverse)

/-- Outcome of `requests.get(image_url, stream=True)`: a raised transport
exception, or a response with a status code and body bytes. -/
inductive FetchResult where
  | transportError
  | response (status : Nat) (body : List Nat)

/-- `scrape_image(image_url, slug)`, abstracted over the HTTP fetch
capability.  The image-URL shape is resolved by three independent `if`
statements (a duplicate of the normalizer's logic): a list is replaced by
its first element, then a dict by its `"url"` entry if that key exists.
`urlparse` then needs a string, as does the `slug + "." + extension`
concatenation — the derived `extension` being `Path(...).suffix`, which
already carries its leading dot.  A transport failure is logged and yields
`None`; a non-200 response yields `None`; a 200 response streams the body
into `filename` (mode `"wb"`, with no delete-before-write) and returns the
file name. -/
def scrape_image (store : Store) (image_url : Value) (slug : Value)
    (fetch : String → FetchResult) : Except PyErr (Store × Option String) := do
  let image_url ←
    match image_url with
    | .list [] => Except.error PyErr.indexError
    | .list (x :: _) => pure x
    | v => pure v
  let image_url :=
    match image_url with
    | .dict d => match alistGet d "url" with
      | some v => v
      | none => .dict d
    | v => v
  let u ←
    match image_url with
    | .str s => pure s
    | _ => Except.error PyErr.typeError
  let extension := pathSuffix (urlPath u)
  let slugStr ←
    match slug with
    | .str s => pure s
    | _ => Except.error PyErr.typeError
  let filename := slugStr ++ "." ++ extension
  match fetch u with
  | .transportError => pure (store, none)
  | .response status body =>
    if status = 200 then pure (writeFileBytes store filename body, some filename)
    else pure (store, none)

/-- `download_image_for_recipe(recipe)`: try to scrape the image named by
the record's `image` and `slug` fields; on success store the file's name in
`image`.  Every exception raised in the `try` block — including the
`AttributeError` from `None.name` when `scrape_image` returns nothing — is
caught and logged, and `image` is set to `None` instead. -/
def download_image_for_recipe (store : Store) (recipe : List (String × Value))
    (fetch : String → FetchResult) : Store × List (String × Value) :=
  match scrape_image store (pyGet recipe "image") (pyGet recipe "slug") fetch with
  | .ok (store2, some img_path) =>
    (store2, setKey recipe "image" (.str (pathName img_path)))
  | .ok (store2, none) => (store2, setKey recipe "image" .vnone)
  | .error _ => (store, setKey recipe "image" .vnone)

/-! ### Auxiliary definitions used only in statements -/

/-- `k` copies of the four characters `amp;`. -/
def ampRep : Nat → List Char
  | 0 => []
  | k + 1 => 'a' :: 'm' :: 'p' :: ';' :: ampRep k

/-- A `k`-fold escaped `<`: `nestEsc 0 = "<"`, `nestEsc 1 = "&lt;"`,
`nestEsc 2 = "&amp;lt;"`, and so on.  Decoding `nestEsc (k + 1)` once
yields `nestEsc k`, so the source loop needs `k + 1` passes on it. -/
def nestEsc : Nat → List Char
  | 0 => ['<']
  | k + 1 => '&' :: (ampRep k ++ ['l', 't', ';'])

/-- True of the values that are neither a string nor a list nor a dict —
the shapes `normalize_image_url`'s final `else` rejects. -/
def isOtherShape : Value → Bool
  | .str _ => false
  | .list _ => false
  | .dict _ => false
  | _ => true

/-- Whether a result is the `UnrecognizedShape` failure. -/
def isUnrecognizedShapeErr : Except PyErr Value → Bool
  | .error (.unrecognizedShape _) => true
  | _ => false

/-- No file in the store shares the slug's stem prefix (the store is fresh
for this slug). -/
def stemFresh (store : Store) (slug : String) : Prop :=
  ∀ f ∈ store, globMatch (stemOf slug) f.1 = false

/-- Whether an extraction result is a successfully produced record. -/
def isOkDict : Except PyErr Value → Bool
  | .ok (.dict _) => true
  | _ => false

/-- A field of the record inside a successful extraction result. -/
def extractedField (res : Except PyErr Value) (k : String) : Option Value :=
  match res with
  | .ok (.dict r) => alistGet r k
  | _ => none

/-! ### Lemmas about the entity-decoding pass -/

theorem unescapePass_length_le (l : List Char) :
    (unescapePass l).length ≤ l.length := by
  induction l using unescapePass.induct <;>
    simp only [unescapePass, List.length_cons, List.length_nil] <;> omega

theorem unescapePass_shrinks (l : List Char) (h : unescapePass l ≠ l) :
    (unescapePass l).length < l.length := by
  induction l using unescapePass.induct with
  | case1 => simp [unescapePass] at h
  | case2 rest ih =>
    have := unescapePass_length_le rest
    simp only [unescapePass, List.length_cons]
    omega
  | case3 rest ih =>
    have := unescapePass_length_le rest
    simp only [unescapePass, List.length_cons]
    omega
  | case4 rest ih =>
    have := unescapePass_length_le rest
    simp only [unescapePass, List.length_cons]
    omega
  | case5 rest ih =>
    have := unescapePass_length_le rest
    simp only [unescapePass, List.length_cons]
    omega
  | case6 c rest h1 h2 h3 h4 ih =>
    simp only [unescapePass, List.length_cons] at h ⊢
    have hne : unescapePass rest ≠ rest := by
      intro he
      exact h (by rw [he])
    exact Nat.succ_lt_succ (ih hne)

/-- With more fuel than the text's length, the loop reaches a genuine fixed
point of the decoding pass: that is, the source's unbounded
equality-convergence loop terminates within `length + 1` iterations. -/
theorem unescapeLoop_fixed :
    ∀ (n : Nat) (l : List Char), l.length < n →
      unescapePass (unescapeLoop n l) = unescapeLoop n l := by
  intro n
  induction n with
  | zero => intro l hl; omega
  | succ n ih =>
    intro l hl
    show unescapePass (unescapeLoop (n + 1) l) = unescapeLoop (n + 1) l
    rw [unescapeLoop]
    by_cases h : unescapePass l = l
    · simp only [h, if_pos rfl]
      exact h
    · simp only [if_neg h]
      have hlt := unescapePass_shrinks l h
      exact ih (unescapePass l) (by omega)

theorem unescapeFix_fixed (l : List Char) :
    unescapePass (unescapeFix l) = unescapeFix l :=
  unescapeLoop_fixed (l.length + 1) l (Nat.lt_succ_self _)

theorem ampRep_length (k : Nat) : (ampRep k).length = 4 * k := by
  induction k with
  | zero => rfl
  | succ k ih => simp only [ampRep, List.length_cons, ih]; omega

theorem nestEsc_length (k : Nat) : (nestEsc (k + 1)).length = 4 * k + 4 := by
  simp [nestEsc, ampRep_length]

theorem nestEsc_succ_ne (k : Nat) : nestEsc k ≠ nestEsc (k + 1) := by
  intro h
  have hlen : (nestEsc k).length = (nestEsc (k + 1)).length := by rw [h]
  cases k with
  | zero => simp [nestEsc, nestEsc_length] at hlen
  | succ k => rw [nestEsc_length, nestEsc_length] at hlen; omega

theorem unescapePass_amp_chain :
    ∀ k, unescapePass (ampRep k ++ ['l', 't', ';']) = ampRep k ++ ['l', 't', ';']
  | 0 => rfl
  | k + 1 => by
    show unescapePass ('a' :: 'm' :: 'p' :: ';' :: (ampRep k ++ ['l', 't', ';'])) = _
    simp only [unescapePass]
    rw [unescapePass_amp_chain k]
    rfl

theorem unescapePass_nest : ∀ k, unescapePass (nestEsc (k + 1)) = nestEsc k
  | 0 => rfl
  | k + 1 => by
    show unescapePass ('&' :: 'a' :: 'm' :: 'p' :: ';' :: (ampRep k ++ ['l', 't', ';'])) = _
    simp only [unescapePass]
    rw [unescapePass_amp_chain k]
    rfl

theorem unescapeLoop_nest :
    ∀ (n k : Nat), n ≤ k → unescapeLoop n (nestEsc k) = nestEsc (k - n) := by
  intro n
  induction n with
  | zero => intro k hk; rfl
  | succ n ih =>
    intro k hk
    cases k with
    | zero => omega
    | succ k =>
      show unescapeLoop (n + 1) (nestEsc (k + 1)) = _
      rw [unescapeLoop]
      simp only [unescapePass_nest k]
      rw [if_neg (nestEsc_succ_ne k)]
      rw [ih k (by omega)]
      congr 1
      omega

/-- **C6.** The claim asserts the decode-until-fixed-point loop of
`unescape_html` is bounded by an explicit iteration cap.  It is not: for
every candidate constant cap there is an input (`nestEsc (cap + 1)`, a
`cap + 1`-fold escaped `<`) on which the loop has not yet reached a fixed
point of the decoding pass after `cap` iterations, so no constant cap
bounds the loop over all inputs. -/
theorem unescape_loop_has_no_constant_cap :
    ¬ ∃ cap : Nat, ∀ l : List Char,
      unescapePass (unescapeLoop cap l) = unescapeLoop cap l := by
  rintro ⟨cap, hall⟩
  have h := hall (nestEsc (cap + 1))
  rw [unescapeLoop_nest cap (cap + 1) (by omega)] at h
  have hone : cap + 1 - cap = 1 := by omega
  rw [hone] at h
  rw [unescapePass_nest 0] at h
  exact absurd h (by decide)

/-- **C6 (amended).** `unescape_html`'s loop terminates on every string,
but by equality convergence, not by a constant cap: each decoding pass that
changes the text strictly shortens it, so `length + 1` iterations always
reach a fixed point of the pass, and `unescapeFix` — the value
`unescape_html` returns — is exactly that fixed point. -/
theorem unescape_html_terminates_by_convergence (l : List Char) :
    unescapePass (unescapeLoop (l.length + 1) l) = unescapeLoop (l.length + 1) l ∧
    unescapeFix l = unescapeLoop (l.length + 1) l :=
  ⟨unescapeLoop_fixed (l.length + 1) l (Nat.lt_succ_self _), rfl⟩

/-- **C7.** `unescape_html` decodes multiply-escaped entities to a fixed
point: on the triple-escaped `&amp;amp;lt;b&amp;amp;gt;` it returns `<b>`,
and every string it returns is invariant under one further decoding
pass. -/
theorem unescape_html_reaches_fixed_point :
    unescape_html (.str "&amp;amp;lt;b&amp;amp;gt;") = .ok (.str "<b>") ∧
    ∀ (l : Value) (s : String), unescape_html l = .ok (.str s) →
      unescapePass s.data = s.data := by
  constructor
  · rfl
  · intro l s h
    cases l with
    | str t =>
      by_cases ht : t.isEmpty
      · simp [unescape_html, pyFalsy, ht] at h
      · simp only [unescape_html, pyFalsy, ht, if_neg, Bool.false_eq_true,
          not_false_eq_true, Except.ok.injEq, Value.str.injEq] at h
        rw [← h]
        exact unescapeFix_fixed t.data
    | vnone => simp [unescape_html, pyFalsy] at h
    | vint n =>
      by_cases hn : (n == 0) = true
      · simp [unescape_html, pyFalsy, hn] at h
      · simp [unescape_html, pyFalsy, hn] at h
    | list xs =>
      by_cases hx : xs.isEmpty
      · simp [unescape_html, pyFalsy, hx] at h
      · simp [unescape_html, pyFalsy, hx] at h
    | dict d =>
      by_cases hd : d.isEmpty
      · simp [unescape_html, pyFalsy, hd] at h
      · simp [unescape_html, pyFalsy, hd] at h

/-- Witness for C7: the fixed-point clause applied at the concrete
triple-escaped input, whose hypothesis the first clause discharges. -/
theorem unescape_html_reaches_fixed_point_witness :
    unescape_html (.str "&amp;amp;lt;b&amp;amp;gt;") = .ok (.str "<b>") ∧
    unescapePass "<b>".data = "<b>".data :=
  ⟨unescape_html_reaches_fixed_point.1,
   unescape_html_reaches_fixed_point.2 (.str "&amp;amp;lt;b&amp;amp;gt;") "<b>"
     unescape_html_reaches_fixed_point.1⟩

/-- **C1 (code evidence).** `normalize_time` maps `None` to `None` and a
non-string to its `str(...)` rendering, as claimed — but a string input
falls off the end of the function and yields `None` instead of passing
through unchanged: `normalize_time("PT1H")` is `None`, not `"PT1H"`. -/
theorem normalize_time_drops_string_input :
    normalize_time (.str "PT1H") = .vnone ∧
    normalize_time .vnone = .vnone ∧
    normalize_time (.vint 90) = .str (pyStr (.vint 90)) :=
  ⟨rfl, rfl, rfl⟩

/-- **C5.** `normalize_image_url` returns the same URL for all three
shapes — the plain string, the one-element list, and the dict with the
`"url"` key — and fails with the `UnrecognizedShape` exception carrying
the offending value on every shape that is none of string, list, dict. -/
theorem normalize_image_url_three_shapes (u : String) (v : Value)
    (h : isOtherShape v = true) :
    normalize_image_url (.str u) = .ok (.str u) ∧
    normalize_image_url (.list [.str u]) = .ok (.str u) ∧
    normalize_image_url (.dict [("url", .str u)]) = .ok (.str u) ∧
    normalize_image_url v = .error (.unrecognizedShape v) := by
  refine ⟨rfl, rfl, rfl, ?_⟩
  cases v <;> simp_all [normalize_image_url, isOtherShape]

/-- Witness for C5 at the URL `http://x/y.jpg` and the non-shape `None`. -/
theorem normalize_image_url_three_shapes_witness :
    normalize_image_url (.str "http://x/y.jpg") = .ok (.str "http://x/y.jpg") ∧
    normalize_image_url (.list [.str "http://x/y.jpg"]) = .ok (.str "http://x/y.jpg") ∧
    normalize_image_url (.dict [("url", .str "http://x/y.jpg")]) =
      .ok (.str "http://x/y.jpg") ∧
    normalize_image_url .vnone = .error (.unrecognizedShape .vnone) :=
  normalize_image_url_three_shapes "http://x/y.jpg" .vnone rfl

/-- **C8.** On `"1. Mix\n2. Bake"` the instruction normalizer splits on the
numbered-step prefixes and the newline, discards the empty fragments, and
wraps the two remaining lines as `{"text": ...}` records, in order. -/
theorem normalize_instructions_splits_numbered_steps :
    normalize_instructions (.str "1. Mix\n2. Bake") =
      .ok (.list [.dict [("text", .str "Mix")], .dict [("text", .str "Bake")]]) := by
  rfl

/-- **C9.** On the empty list, `normalize_instructions` probes
`instructions[0]` before any shape dispatch can reject the value, so it
raises `IndexError` — not the `UnrecognizedShape` failure. -/
theorem normalize_instructions_empty_list_index_error :
    normalize_instructions (.list []) = .error .indexError ∧
    isUnrecognizedShapeErr (normalize_instructions (.list [])) = false :=
  ⟨rfl, rfl⟩

/-! ### Lemmas about dict updates -/

theorem alistGet_setKey_self (d : List (String × Value)) (k : String) (v : Value) :
    alistGet (setKey d k v) k = some v := by
  induction d with
  | nil => simp [setKey, alistGet]
  | cons p rest ih =>
    obtain ⟨k0, v0⟩ := p
    by_cases h : k0 = k
    · simp [setKey, h, alistGet]
    · simp [setKey, h, alistGet, ih]

theorem alistGet_setKey_ne (d : List (String × Value)) (k : String) (v : Value)
    (k2 : String) (h : k2 ≠ k) :
    alistGet (setKey d k v) k2 = alistGet d k2 := by
  induction d with
  | nil =>
    simp only [setKey, alistGet]
    rw [if_neg (fun hh : k = k2 => h hh.symm)]
  | cons p rest ih =>
    obtain ⟨k0, v0⟩ := p
    by_cases h0 : k0 = k
    · subst h0
      simp only [setKey, if_pos rfl, alistGet]
      rw [if_neg (fun hh : k0 = k2 => h hh.symm),
        if_neg (fun hh : k0 = k2 => h hh.symm)]
    · simp only [setKey, if_neg h0, alistGet]
      by_cases h2 : k0 = k2
      · rw [if_pos h2, if_pos h2]
      · rw [if_neg h2, if_neg h2, ih]

/-- **C2.** Whenever `scrape_image` raises, `download_image_for_recipe`
catches the exception: it returns the record with `image` set to `None`,
every other field unchanged, and the store untouched. -/
theorem download_image_sets_null_on_error (store : Store)
    (recipe : List (String × Value)) (fetch : String → FetchResult) (e : PyErr)
    (h : scrape_image store (pyGet recipe "image") (pyGet recipe "slug") fetch =
      .error e) :
    download_image_for_recipe store recipe fetch =
      (store, setKey recipe "image" .vnone) ∧
    alistGet (setKey recipe "image" .vnone) "image" = some .vnone ∧
    ∀ k, k ≠ "image" →
      alistGet (setKey recipe "image" .vnone) k = alistGet recipe k := by
  refine ⟨?_, alistGet_setKey_self recipe "image" .vnone,
    fun k hk => alistGet_setKey_ne recipe "image" .vnone k hk⟩
  unfold download_image_for_recipe
  rw [h]

/-- Witness for C2: a record whose `image` field is the integer `5`, on
which `scrape_image` raises before fetching; the `name` field survives. -/
theorem download_image_sets_null_on_error_witness :
    download_image_for_recipe []
        [("slug", .str "chili"), ("image", .vint 5), ("name", .str "Chili")]
        (fun _ => .transportError) =
      ([], setKey [("slug", .str "chili"), ("image", .vint 5),
        ("name", .str "Chili")] "image" .vnone) ∧
    alistGet (setKey [("slug", .str "chili"), ("image", .vint 5),
        ("name", .str "Chili")] "image" .vnone) "name" =
      alistGet [("slug", .str "chili"), ("image", .vint 5),
        ("name", .str "Chili")] "name" := by
  have h := download_image_sets_null_on_error []
    [("slug", .str "chili"), ("image", .vint 5), ("name", .str "Chili")]
    (fun _ => .transportError) .typeError rfl
  exact ⟨h.1, h.2.2 "name" (by decide)⟩

/-- **C4.** When both structured-data extractions come back empty, the
extractor builds the OpenGraph fallback record: its `recipeIngredient` is
exactly the one-element sentinel list, `recipeInstructions` the one-element
sentinel `{"text": ...}` list, `recipeYield` the empty string, and `slug`
the slugification of the `og:title` value. -/
theorem extract_falls_back_to_opengraph (props : List (String × String))
    (url t : String) (h : og_field props "og:title" = some t) :
    isOkDict (extract_recipe_from_html [] [] props url) = true ∧
    extractedField (extract_recipe_from_html [] [] props url) "recipeIngredient" =
      some (.list [.str "Could not detect ingredients"]) ∧
    extractedField (extract_recipe_from_html [] [] props url) "recipeInstructions" =
      some (.list [.dict [("text", .str "Could not detect instructions")]]) ∧
    extractedField (extract_recipe_from_html [] [] props url) "recipeYield" =
      some (.str "") ∧
    extractedField (extract_recipe_from_html [] [] props url) "slug" =
      some (.str (slugify t)) := by
  have hb : extract_recipe_from_html [] [] props url =
      (basic_recipe_from_opengraph props).map .dict := rfl
  rw [hb]
  unfold basic_recipe_from_opengraph
  rw [h]
  exact ⟨rfl, rfl, rfl, rfl, rfl⟩

/-- Witness for C4: `og:title="Chili"` gives `slug="chili"` and the
sentinel ingredient list. -/
theorem extract_falls_back_to_opengraph_witness :
    isOkDict (extract_recipe_from_html [] []
      [("og:title", "Chili"), ("og:image", "http://x/y.jpg")] "http://x") = true ∧
    extractedField (extract_recipe_from_html [] []
        [("og:title", "Chili"), ("og:image", "http://x/y.jpg")] "http://x") "slug" =
      some (.str "chili") ∧
    extractedField (extract_recipe_from_html [] []
        [("og:title", "Chili"), ("og:image", "http://x/y.jpg")] "http://x")
        "recipeIngredient" =
      some (.list [.str "Could not detect ingredients"]) := by
  have h := extract_falls_back_to_opengraph
    [("og:title", "Chili"), ("og:image", "http://x/y.jpg")] "http://x" "Chili" rfl
  exact ⟨h.1, h.2.2.2.2, h.2.1⟩

/-! ### Lemmas about the image store -/

theorem globMatch_stem_self (s : String) : globMatch (stemOf s) s = true := by
  unfold globMatch stemOf
  rw [ List.isPrefixOf_iff_prefix]
  exact List.takeWhile_prefix _

theorem globMatch_stem_append (s t : String) :
    globMatch (stemOf s) (s ++ t) = true := by
  unfold globMatch stemOf
  rw [ List.isPrefixOf_iff_prefix, String.data_append]
  exact List.IsPrefix.trans ( List.takeWhile_prefix _) ( List.prefix_append _ _)

theorem data_length_ne (a b : String) (h : a.data.length ≠ b.data.length) :
    a ≠ b :=
  fun he => h (by rw [he])

theorem slug_dot_ext_ne_slug (slug ext : String) : slug ++ "." ++ ext ≠ slug := by
  intro he
  have hd := congrArg String.data he
  rw [String.data_append, String.data_append] at hd
  have hlen := congrArg List.length hd
  simp only [List.length_append, List.length_cons, List.length_nil] at hlen
  omega

theorem slug_dot_ext_injective (slug ext1 ext2 : String)
    (h : slug ++ "." ++ ext1 = slug ++ "." ++ ext2) : ext1 = ext2 := by
  have hd := congrArg String.data h
  rw [String.data_append, String.data_append, String.data_append,
    String.data_append] at hd
  rw [List.append_assoc, List.append_assoc] at hd
  have h3 := List.append_cancel_left (List.append_cancel_left hd)
  cases ext1 with
  | mk d1 =>
    cases ext2 with
    | mk d2 => exact congrArg String.mk (by simpa using h3)

theorem find?_glob_none (store : Store) (slug : String)
    (h : stemFresh store slug) :
    store.find? (fun f => globMatch (stemOf slug) f.1) = none :=
  List.find?_eq_none.mpr (fun f hf => by simp [h f hf])

theorem find?_key_none_of_fresh (store : Store) (slug name : String)
    (h : stemFresh store slug) (hg : globMatch (stemOf slug) name = true) :
    store.find? (fun f => f.1 = name) = none :=
  List.find?_eq_none.mpr (fun f hf hp => by
    have hb := h f hf
    rw [of_decide_eq_true hp, hg] at hb
    cases hb)

theorem delete_image_of_fresh (store : Store) (slug : String)
    (h : stemFresh store slug) : delete_image store slug = store := by
  unfold delete_image
  rw [find?_glob_none store slug h]

theorem readBytes_none_of_fresh (store : Store) (slug name : String)
    (h : stemFresh store slug) (hg : globMatch (stemOf slug) name = true) :
    readBytes store name = none := by
  unfold readBytes
  rw [find?_key_none_of_fresh store slug name h hg]
  rfl

/-- **C3.** Starting from a store with no file for the slug's stem,
`write_image(slug, bytes, ext)` stores the bytes under `slug.ext`, and
`read_image(slug)` finds exactly that file with exactly those bytes; a
subsequent `write_image` of the same slug with a different extension
removes the earlier file and leaves exactly one stored file for the slug,
the new one. -/
theorem write_image_read_image_roundtrip (store : Store) (slug : String)
    (d1 : List Nat) (ext1 : String) (d2 : List Nat) (ext2 : String)
    (hfresh : stemFresh store slug) (hne : ext1 ≠ ext2) :
    (write_image store slug d1 ext1).2 = slug ++ "." ++ ext1 ∧
    read_image (write_image store slug d1 ext1).1 slug =
      some (slug ++ "." ++ ext1) ∧
    readBytes (write_image store slug d1 ext1).1 (slug ++ "." ++ ext1) =
      some d1 ∧
    readBytes (write_image (write_image store slug d1 ext1).1 slug d2 ext2).1
      (slug ++ "." ++ ext1) = none ∧
    (write_image (write_image store slug d1 ext1).1 slug d2 ext2).1.filter
      (fun f => globMatch (stemOf slug) f.1) = [(slug ++ "." ++ ext2, d2)] := by
  have hg1 : globMatch (stemOf slug) (slug ++ "." ++ ext1) = true := by
    have h := globMatch_stem_append slug ("." ++ ext1)
    rwa [← String.append_assoc] at h
  have hg2 : globMatch (stemOf slug) (slug ++ "." ++ ext2) = true := by
    have h := globMatch_stem_append slug ("." ++ ext2)
    rwa [← String.append_assoc] at h
  have hne21 : slug ++ "." ++ ext2 ≠ slug ++ "." ++ ext1 :=
    fun he => hne (slug_dot_ext_injective slug ext2 ext1 he).symm
  have hw1 : (write_image store slug d1 ext1).1 =
      store ++ [(slug ++ "." ++ ext1, d1)] := by
    have h1 : (write_image store slug d1 ext1).1 =
        appendFile (delete_image store slug) (slug ++ "." ++ ext1) d1 := rfl
    rw [h1, delete_image_of_fresh store slug hfresh]
    unfold appendFile
    rw [readBytes_none_of_fresh store slug _ hfresh hg1]
  have hsing1 : List.find? (fun f => globMatch (stemOf slug) f.1)
      [(slug ++ "." ++ ext1, d1)] = some (slug ++ "." ++ ext1, d1) := by
    simp [List.find?_cons, hg1]
  have hw2 : (write_image (write_image store slug d1 ext1).1 slug d2 ext2).1 =
      store ++ [(slug ++ "." ++ ext2, d2)] := by
    have hdel : delete_image (write_image store slug d1 ext1).1 slug = store := by
      unfold delete_image
      rw [hw1, List.find?_append, find?_glob_none store slug hfresh, hsing1]
      show List.eraseP _ _ = store
      rw [ List.eraseP_append_right _
        (fun f hf hp => by
          have hb := hfresh f hf
          rw [of_decide_eq_true hp, hg1] at hb
          cases hb),
        List.eraseP_cons_of_pos (by simp)]
      simp
    have h1 : (write_image (write_image store slug d1 ext1).1 slug d2 ext2).1 =
        appendFile (delete_image (write_image store slug d1 ext1).1 slug)
          (slug ++ "." ++ ext2) d2 := rfl
    rw [h1, hdel]
    unfold appendFile
    rw [readBytes_none_of_fresh store slug _ hfresh hg2]
  have hfile1 : isFile (store ++ [(slug ++ "." ++ ext1, d1)]) slug = false := by
    unfold isFile
    rw [List.any_eq_false]
    intro f hf
    rcases List.mem_append.mp hf with hmem | hmem
    · intro hp
      have hb := hfresh f hmem
      rw [of_decide_eq_true hp, globMatch_stem_self] at hb
      cases hb
    · rcases List.mem_singleton.mp hmem with rfl
      simpa using slug_dot_ext_ne_slug slug ext1
  refine ⟨rfl, ?_, ?_, ?_, ?_⟩
  · rw [hw1]
    unfold read_image
    rw [hfile1, if_neg (by simp)]
    rw [List.find?_append, find?_glob_none store slug hfresh, hsing1]
    rfl
  · rw [hw1]
    unfold readBytes
    rw [List.find?_append, find?_key_none_of_fresh store slug _ hfresh hg1]
    simp [List.find?_cons]
  · rw [hw2]
    unfold readBytes
    rw [List.find?_append, find?_key_none_of_fresh store slug _ hfresh hg1]
    simp [List.find?_cons, hne21]
  · rw [hw2, List.filter_append]
    rw [List.filter_eq_nil_iff.mpr (fun f hf => by simp [hfresh f hf])]
    simp [List.filter, hg2]

/-- Witness for C3: the spec's own scenario — write `carrot-cake` as jpg,
read it back, then overwrite as png — on the empty store. -/
theorem write_image_read_image_roundtrip_witness :
    (write_image [] "carrot-cake" [1, 2, 3] "jpg").2 = "carrot-cake" ++ "." ++ "jpg" ∧
    read_image (write_image [] "carrot-cake" [1, 2, 3] "jpg").1 "carrot-cake" =
      some ("carrot-cake" ++ "." ++ "jpg") ∧
    readBytes (write_image [] "carrot-cake" [1, 2, 3] "jpg").1
      ("carrot-cake" ++ "." ++ "jpg") = some [1, 2, 3] ∧
    readBytes (write_image (write_image [] "carrot-cake" [1, 2, 3] "jpg").1
      "carrot-cake" [4, 5] "png").1 ("carrot-cake" ++ "." ++ "jpg") = none ∧
    (write_image (write_image [] "carrot-cake" [1, 2, 3] "jpg").1
      "carrot-cake" [4, 5] "png").1.filter
      (fun f => globMatch (stemOf "carrot-cake") f.1) =
      [("carrot-cake" ++ "." ++ "png", [4, 5])] :=
  write_image_read_image_roundtrip [] "carrot-cake" [1, 2, 3] "jpg" [4, 5] "png"
    (fun f hf => absurd hf (List.not_mem_nil f)) (by decide)

theorem slug_ddot_ext_ne_slug (slug ext : String) :
    slug ++ ".." ++ ext ≠ slug := by
  intro he
  have hd := congrArg String.data he
  rw [String.data_append, String.data_append] at hd
  have hlen := congrArg List.length hd
  simp only [List.length_append, List.length_cons, List.length_nil] at hlen
  omega

/-- **C10.** When the image URL's path ends in an extension, the suffix
`scrape_image` derives already carries its leading dot, so the stored file
name is `slug + "." + "." + ext` — it contains a doubled dot.  Reading the
slug back then cannot succeed through `read_image`'s exact-name branch
(`isFile` is false for the slug); only the stem-prefix glob fallback finds
the file. -/
theorem scrape_image_doubles_the_dot (u slug ext2 : String) (body : List Nat)
    (fetch : String → FetchResult)
    (hsuf : pathSuffix (urlPath u) = "." ++ ext2) (hext : ext2 ≠ "")
    (hfetch : fetch u = .response 200 body) :
    scrape_image [] (.str u) (.str slug) fetch =
      .ok ([(slug ++ ".." ++ ext2, body)], some (slug ++ ".." ++ ext2)) ∧
    isFile [(slug ++ ".." ++ ext2, body)] slug = false ∧
    read_image [(slug ++ ".." ++ ext2, body)] slug =
      some (slug ++ ".." ++ ext2) := by
  have hfn : slug ++ "." ++ ("." ++ ext2) = slug ++ ".." ++ ext2 := by
    rw [← String.append_assoc, String.append_assoc slug "." "."]
    rfl
  have hg : globMatch (stemOf slug) (slug ++ ".." ++ ext2) = true := by
    have h := globMatch_stem_append slug (".." ++ ext2)
    rwa [← String.append_assoc] at h
  have hne1 : slug ++ ".." ++ ext2 ≠ slug := slug_ddot_ext_ne_slug slug ext2
  have hfile : isFile [(slug ++ ".." ++ ext2, body)] slug = false := by
    unfold isFile
    rw [List.any_eq_false]
    intro f hf
    rcases List.mem_singleton.mp hf with rfl
    simpa using hne1
  refine ⟨?_, hfile, ?_⟩
  · have hstep : scrape_image [] (.str u) (.str slug) fetch =
        (match fetch u with
         | .transportError => Except.ok ([], none)
         | .response status body2 =>
           if status = 200 then
             Except.ok
               (writeFileBytes [] (slug ++ "." ++ pathSuffix (urlPath u)) body2,
                some (slug ++ "." ++ pathSuffix (urlPath u)))
           else Except.ok ([], none)) := rfl
    have hred : (match FetchResult.response 200 body with
         | FetchResult.transportError =>
           (Except.ok ([], none) : Except PyErr (Store × Option String))
         | FetchResult.response status body2 =>
           if status = 200 then
             Except.ok
               (writeFileBytes [] (slug ++ "." ++ pathSuffix (urlPath u)) body2,
                some (slug ++ "." ++ pathSuffix (urlPath u)))
           else Except.ok ([], none)) =
        Except.ok
          (writeFileBytes [] (slug ++ "." ++ pathSuffix (urlPath u)) body,
           some (slug ++ "." ++ pathSuffix (urlPath u))) := rfl
    rw [hstep, hfetch, hred, hsuf, hfn]
    rfl
  · unfold read_image
    rw [hfile, if_neg (by simp)]
    simp [List.find?_cons, hg]

/-- Witness for C10: scraping `http://x/y.jpg` for the slug `chili` stores
`chili..jpg`, which the exact-name branch misses and the glob finds. -/
theorem scrape_image_doubles_the_dot_witness :
    scrape_image [] (.str "http://x/y.jpg") (.str "chili")
        (fun _ => .response 200 [7]) =
      .ok ([("chili..jpg", [7])], some "chili..jpg") ∧
    isFile [("chili..jpg", [7])] "chili" = false ∧
    read_image [("chili..jpg", [7])] "chili" = some "chili..jpg" :=
  scrape_image_doubles_the_dot "http://x/y.jpg" "chili" "jpg" [7]
    (fun _ => .response 200 [7]) rfl (by decide) rfl

end Mealie
